import Mathlib

/-
Verification of the data-sifter ingestion-and-export pipeline.

This file gives a shallow embedding, in Lean 4, of the core of the
data-sifter program (src/main.rs, with src/database.rs holding textually
near-identical copies of the same functions).  External collaborators
(the PostgreSQL store via sqlx, the csv reader/writer, the filesystem)
are abstracted as explicit data: a `PgValue` records which typed decodes
the store would accept for a result cell, the outcome of executing an
insert statement is an oracle `Nat → Except DbErr Unit`, the completion
order of the concurrently driven insert futures is an explicit list
`order`, the destination file is an `Option` of its record contents, and
the interleaving of the whole run is recorded as an explicit event trace.

Fallible Rust code (`Result`, `?`) is embedded as `Except`; a Rust
`panic!` / failed `assert!` (which terminates the process) is embedded as
`Option.none` or a dedicated error constructor, as noted at each site.
-/

namespace DataSifter

deriving instance DecidableEq for Except

/-- Boolean success flag of an `Except`, used to label trace events. -/
def exceptToBool {ε α : Type} : Except ε α → Bool
  | .ok _ => true
  | .error _ => false

/-! ## Value Decoder (`impl From<&PgValue> for DecodedValue`, main.rs 211-232) -/

/-- Rust's `Cow<'v, str>`: the decoder either borrows the text it was
given or materializes an owned rendering. -/
inductive Cow where
  | borrowed (s : String)
  | owned (s : String)
deriving DecidableEq

/-- The text viewed through the `Cow`, as `AsRef<[u8]>` exposes it to the
csv writer (main.rs 234-241). -/
def Cow.text : Cow → String
  | .borrowed s => s
  | .owned s => s

/-- An `f32` received from the store, carried together with its Rust
`Display` rendering (`decoded.to_string()`); float arithmetic is never
performed by the program, only this rendering is observable. -/
structure RustF32 where
  display : String
deriving DecidableEq

/-- An `f64` received from the store, carried with its Rust `Display`
rendering. -/
structure RustF64 where
  display : String
deriving DecidableEq

/-- A `rust_decimal::Decimal` received from the store, carried with its
canonical `Display` rendering. -/
structure RustDecimal where
  display : String
deriving DecidableEq

/-- One opaque typed result-cell value from sqlx.  Each field records
whether the corresponding `value.try_decode::<T>()` call would succeed,
and with what decoded value; the decodes themselves happen inside sqlx,
an external collaborator. -/
structure PgValue where
  textVal : Option String
  i32Val : Option Int
  i64Val : Option Int
  f32Val : Option RustF32
  f64Val : Option RustF64
  decimalVal : Option RustDecimal
  typeInfo : String
deriving DecidableEq

/-- `struct DecodedValue<'v> { data: Cow<'v, str> }` (main.rs 207-209). -/
structure DecodedValue where
  data : Cow
deriving DecidableEq

/-- `From<&PgValue> for DecodedValue` (main.rs 211-232): the if-let chain
trying text, i32, i64, f32, f64, Decimal in that order.  The final
`panic!("No determinable value for type info ...")` aborts the process;
it is embedded as `none`. -/
def DecodedValue.fromPgValue (value : PgValue) : Option DecodedValue :=
  match value.textVal with
  | some decoded => some ⟨Cow.borrowed decoded⟩
  | none =>
    match value.i32Val with
    | some decoded => some ⟨Cow.owned (toString decoded)⟩
    | none =>
      match value.i64Val with
      | some decoded => some ⟨Cow.owned (toString decoded)⟩
      | none =>
        match value.f32Val with
        | some decoded => some ⟨Cow.owned decoded.display⟩
        | none =>
          match value.f64Val with
          | some decoded => some ⟨Cow.owned decoded.display⟩
          | none =>
            match value.decimalVal with
            | some decoded => some ⟨Cow.owned decoded.display⟩
            | none => none

/-- Specification-side view of the decode precedence: the six attempted
interpretations of a cell, already rendered as text, in the order the
spec lists them. -/
def decodeAttempts (v : PgValue) : List (Option String) :=
  [v.textVal,
   v.i32Val.map (fun n => toString n),
   v.i64Val.map (fun n => toString n),
   v.f32Val.map RustF32.display,
   v.f64Val.map RustF64.display,
   v.decimalVal.map RustDecimal.display]

/-- Specification-side "first successful interpretation" of a list of
attempts. -/
def firstSome : List (Option String) → Option String
  | [] => none
  | some s :: _ => some s
  | none :: rest => firstSome rest

/-! ## Schema and Table Provisioner (main.rs 243-291) -/

/-- `struct Schema { columns: Vec<Box<str>> }`. -/
structure Schema where
  columns : List String
deriving DecidableEq

/-- `From<&StringRecord> for Schema`: collects the header record's fields
in order. -/
def Schema.ofRecord (record : List String) : Schema := ⟨record⟩

/-- `Schema::len`. -/
def Schema.len (s : Schema) : Nat := s.columns.length

/-- The shared shape of the two `for (index, column_name) in
self.columns.iter().enumerate()` loops in `Schema` (main.rs 272-276 and
285-288): starting from accumulator `q` at position `index`, append
`", "` before every element except the one at index 0, rendering each
element through `g`. -/
def enumeratedCommaFold (g : String → String) (q : String) (index : Nat) :
    List String → String
  | [] => q
  | column_name :: rest =>
      enumeratedCommaFold g ((if index ≠ 0 then q ++ ", " else q) ++ g column_name)
        (index + 1) rest

/-- `Schema::column_names_joined_by_commas` (main.rs 283-290). -/
def Schema.column_names_joined_by_commas (s : Schema) : String :=
  enumeratedCommaFold (fun column_name => column_name) "" 0 s.columns

/-- The `create_table_query` string built by `Schema::create_table`
(main.rs 271-277): `CREATE TABLE data (c1 VARCHAR(256) NOT NULL, ...)`. -/
def Schema.create_table_query (s : Schema) : String :=
  enumeratedCommaFold (fun column_name => column_name ++ " VARCHAR(256) NOT NULL")
    "CREATE TABLE data (" 0 s.columns ++ ")"

/-- The first statement `Schema::create_table` executes (main.rs 269). -/
def dropTableStatement : String := "DROP TABLE IF EXISTS data"

/-- `Schema::create_table` (main.rs 268-281), viewed as the ordered list
of SQL statements it sends to the store: the unconditional drop first,
then the create statement.  (database.rs names the same function
`create_or_recreate_table`.) -/
def Schema.create_table (s : Schema) : List String :=
  [dropTableStatement, s.create_table_query]

/-- The destination table of the store, when present: its column list and
its rows. -/
structure Table where
  cols : List String
  rows : List (List String)
deriving DecidableEq

/-- The store's state restricted to the one destination table `data`:
`none` when the table is absent. -/
def DbState : Type := Option Table

/-- The store's contract for `DROP TABLE IF EXISTS data`: it succeeds
whether or not the table exists, leaving it absent.  (Postgres is an
external collaborator; this is its documented `IF EXISTS` behaviour.) -/
def execDropTableIfExists (_db : DbState) : Except Unit DbState := .ok none

/-- Specification-side comma-separated join: the items in order, with
`", "` between consecutive items. -/
def commaSeparated : List String → String
  | [] => ""
  | [x] => x
  | x :: y :: rest => x ++ ", " ++ commaSeparated (y :: rest)

/-! ## Ingestion Scheduler (`App::read_csv`, main.rs 104-144) -/

/-- A csv record-level read failure (`record?` at main.rs 122). -/
inductive CsvErr where
  | malformed (msg : String)
deriving DecidableEq

/-- A statement rejected by the store. -/
inductive DbErr where
  | queryRejected (msg : String)
deriving DecidableEq

/-- How `App::read_csv` can fail. -/
inductive ReadErr where
  /-- `record?` failed while iterating `csv_input.records()`. -/
  | csv (e : CsvErr)
  /-- the `assert_eq!(schema.len(), record.len(), "Field list must match")`
  panic at main.rs 123, aborting the process at the offending row. -/
  | fieldCountMismatch (rowIdx : Nat)
  /-- a unit's insert was rejected; surfaced by `result?` at main.rs 141. -/
  | insertFailed (e : DbErr)
deriving DecidableEq

/-- The insert statement built for one record (main.rs 130-133):
`INSERT INTO data (c1, c2) VALUES ('v1', 'v2')`, each field embedded
verbatim as a literal. -/
def insertQuery (schema : Schema) (record : List String) : String :=
  "INSERT INTO data (" ++ schema.column_names_joined_by_commas ++ ") VALUES (" ++
    commaSeparated (record.map (fun value => "'" ++ value ++ "'")) ++ ")"

/-- The `for record in csv_input.records()` loop of `App::read_csv`
(main.rs 121-139), starting at row `rowIdx`: each record must parse
(`record?`) and must have exactly `schema.len()` fields (the
`assert_eq!`), and then contributes one insert statement, pushed as an
unpolled future.  On any failure the loop aborts; since `FuturesUnordered`
futures only run when polled by the later `collect`, which is never
reached, none of the pushed inserts is ever attempted in that case. -/
def buildUnitsFrom (schema : Schema) (rowIdx : Nat) :
    List (Except CsvErr (List String)) → Except ReadErr (List String)
  | [] => .ok []
  | .error e :: _ => .error (.csv e)
  | .ok record :: rest =>
      if schema.len = record.length then
        match buildUnitsFrom schema (rowIdx + 1) rest with
        | .error e => .error e
        | .ok qs => .ok (insertQuery schema record :: qs)
      else .error (.fieldCountMismatch rowIdx)

/-- The full record loop, from row 0. -/
def buildUnits (schema : Schema) (records : List (Except CsvErr (List String))) :
    Except ReadErr (List String) :=
  buildUnitsFrom schema 0 records

/-- The `for result in futures.collect::<Vec<_>>().await { result?; }`
loop (main.rs 140-142): the vector holds every unit's outcome in
completion order (all futures were already driven to completion by
`collect`), and the loop surfaces the first failure of that vector. -/
def collectAll {ε : Type} : List (Except ε Unit) → Except ε Unit
  | [] => .ok ()
  | .ok _ :: rest => collectAll rest
  | .error e :: _ => .error e

/-- Specification-side "first captured failure" of a completion-ordered
outcome list. -/
def firstFailure {ε : Type} : List (Except ε Unit) → Option ε
  | [] => none
  | .ok _ :: rest => firstFailure rest
  | .error e :: _ => some e

/-- What one call of `App::read_csv` did: its result, the insert
statements whose execution was actually started, and the units'
completion events `(unit index, outcome)` in completion order. -/
structure IngestionRun where
  result : Except ReadErr Unit
  attempted : List String
  completions : List (Nat × Except DbErr Unit)
deriving DecidableEq

/-- `App::read_csv` (main.rs 104-144).  `records` is the csv record
sequence (each already parsed or a read error), `outcome i` is the
store's verdict on the `i`-th insert unit, and `order` is the order in
which the concurrently executing units complete (for a faithful run it is
a permutation of the unit indices: `FuturesUnordered::collect` drives
every future to completion exactly once, never cancelling a unit because
a sibling failed).  If the building loop aborts, no unit was ever polled,
so nothing is attempted and nothing completes. -/
def read_csv (schema : Schema) (records : List (Except CsvErr (List String)))
    (outcome : Nat → Except DbErr Unit) (order : List Nat) : IngestionRun :=
  match buildUnits schema records with
  | .error e => ⟨.error e, [], []⟩
  | .ok units =>
      let completions := order.map (fun i => (i, outcome i))
      match collectAll (completions.map Prod.snd) with
      | .error e => ⟨.error (.insertFailed e), units, completions⟩
      | .ok _ => ⟨.ok (), units, completions⟩

/-! ## Export Writer (`App::write_csv` / `write_row_to_csv`, main.rs 146-204) -/

/-- One result row from the query: its column names (in order) and its
cell values. -/
structure PgRow where
  columns : List String
  values : List PgValue
deriving DecidableEq

/-- The two loops of `App::write_row_to_csv` (main.rs 184-204): pull each
cell's raw value (`try_get_raw`, in-bounds by construction), decode each
through `DecodedValue::from`, and render the record the csv writer
receives.  `none` models the decoder's `panic!`. -/
def decodeRowValues (row : PgRow) : Option (List String) :=
  (row.values.mapM DecodedValue.fromPgValue).map
    (fun decoded_data => decoded_data.map (fun d => d.data.text))

/-- Writing one row's record to the destination (the
`csv_writer.write_record(decoded_data)?` call): appends one record, or
`none` when decoding panicked. -/
def write_row_to_csv (row : PgRow) (file : List (List String)) :
    Option (List (List String)) :=
  match decodeRowValues row with
  | none => none
  | some record0 => some (file ++ [record0])

/-- How `App::write_csv` can fail. -/
inductive WriteErr where
  /-- `OpenOptions::new().write(true).create_new(true)` refused to open
  because the destination already exists (main.rs 150-153). -/
  | destinationExists
  /-- `row?` failed: the cursor yielded a store error. -/
  | queryRow (e : DbErr)
  /-- the Value Decoder's `panic!` aborted the process mid-export. -/
  | decodePanic
deriving DecidableEq

/-- The `query.map(|row| { let row = row?; self.write_row_to_csv(...) })`
stream over the remaining rows (main.rs 174-177), pulled to exhaustion by
`collect`: yields the per-row outcomes in order and the file contents
after all writes.  A row error does not stop the stream (later rows are
still pulled and written); a decode panic aborts the process. -/
def writeRemaining : List (Except DbErr PgRow) → List (List String) →
    (List (Except WriteErr Unit) × List (List String))
  | [], file => ([], file)
  | .error e :: rest, file =>
      let tail := writeRemaining rest file
      (.error (.queryRow e) :: tail.1, tail.2)
  | .ok row :: rest, file =>
      match write_row_to_csv row file with
      | none => ([.error .decodePanic], file)
      | some file1 =>
          let tail := writeRemaining rest file1
          (.ok () :: tail.1, tail.2)

/-- `App::write_csv` (main.rs 146-182).  `rows` is the lazily pulled
result cursor; `dest` is the destination path's current content (`none`
when no file exists there).  Returns the run result (`Ok` carrying
"any rows written?") together with the destination's content afterwards.
The file is opened with create-new semantics *before* the first row is
pulled; a pre-existing destination is refused untouched.  If the cursor
is empty the function returns `false` having written no record (the file
exists but is empty). -/
def write_csv (rows : List (Except DbErr PgRow))
    (dest : Option (List (List String))) :
    Except WriteErr Bool × Option (List (List String)) :=
  match dest with
  | some f => (.error .destinationExists, some f)
  | none =>
      match rows with
      | [] => (.ok false, some [])
      | .error e :: _ => (.error (.queryRow e), some [])
      | .ok first_row :: rest =>
          match write_row_to_csv first_row [first_row.columns] with
          | none => (.error .decodePanic, some [first_row.columns])
          | some file1 =>
              match collectAll (writeRemaining rest file1).1 with
              | .error e => (.error e, some (writeRemaining rest file1).2)
              | .ok _ => (.ok true, some (writeRemaining rest file1).2)

/-! ## The driving flow (`App::run`, main.rs 77-102) -/

/-- How `App::run` can fail. -/
inductive RunErr where
  | ingestion (e : ReadErr)
  /-- `eyre::bail!("Delete existing file first")` at main.rs 89. -/
  | outputAlreadyExists
  | exportFailed (e : WriteErr)
deriving DecidableEq

/-- The observable events of one run, in the order the single sequential
flow of `App::run` produces them. -/
inductive Event where
  | prompted (question : String)
  | tableProvisioned (cols : List String)
  | unitCompleted (idx : Nat) (ok : Bool)
  | ingestionFinished (ok : Bool)
  | queryExecuted (sql : String)
  | outputMessage (line : String)
deriving DecidableEq

def Event.isUnitCompletion : Event → Bool
  | .unitCompleted _ _ => true
  | _ => false

def Event.isQueryExecution : Event → Bool
  | .queryExecuted _ => true
  | _ => false

/-- Events belonging to the Ingestion Scheduler: a unit completing, or
the scheduler's aggregated outcome becoming available. -/
def Event.isIngestionEvent : Event → Bool
  | .unitCompleted _ _ => true
  | .ingestionFinished _ => true
  | _ => false

/-- Everything external one run of `App::run` consumes: the parsed csv
header and records, the store's verdict on each insert unit and the
units' completion order, the operator's SQL string, the query's result
cursor, and the destination path's current content. -/
structure Env where
  header : List String
  records : List (Except CsvErr (List String))
  insertOutcome : Nat → Except DbErr Unit
  order : List Nat
  sql : String
  queryRows : List (Except DbErr PgRow)
  destFile : Option (List (List String))

/-- The ingestion performed by `self.read_csv(&csv_input).await` at
main.rs 81 (with the schema taken from the csv header, main.rs 110-118). -/
def ingestionOf (env : Env) : IngestionRun :=
  read_csv ⟨env.header⟩ env.records env.insertOutcome env.order

/-- The trace events of the ingestion phase of a run: the csv-path
prompt, the table provisioning, each unit's completion in completion
order, and the scheduler's aggregated outcome. -/
def ingestionTrace (env : Env) : List Event :=
  [Event.prompted "Enter CSV dataset file", Event.tableProvisioned env.header]
    ++ (ingestionOf env).completions.map
        (fun c => Event.unitCompleted c.1 (exceptToBool c.2))
    ++ [Event.ingestionFinished (exceptToBool (ingestionOf env).result)]

/-- The outcome and trailing events of the query/export phase
(main.rs 97-99). -/
def queryPhase (env : Env) : Except RunErr Unit × List Event :=
  match write_csv env.queryRows env.destFile with
  | (.error e, _) => (.error (.exportFailed e), [])
  | (.ok any_results, _) =>
      (.ok (), [Event.outputMessage
        (if any_results then "Wrote output CSV" else "Empty result set")])

/-- `App::run` (main.rs 77-102), as result plus event trace.  The flow is
sequential: prompt for the csv path, run `read_csv` to completion
(awaited inline at main.rs 81), bail if the output path already exists
(main.rs 88-90), prompt for the SQL query (main.rs 92), execute it
(main.rs 94-95), then stream the results out through `write_csv`. -/
def App.run (env : Env) : Except RunErr Unit × List Event :=
  match (ingestionOf env).result with
  | .error e => (.error (.ingestion e), ingestionTrace env)
  | .ok _ =>
      if env.destFile.isSome then
        (.error .outputAlreadyExists, ingestionTrace env)
      else
        ((queryPhase env).1,
          ingestionTrace env
            ++ Event.prompted "Enter SQL query"
              :: Event.queryExecuted env.sql
              :: (queryPhase env).2)

/-! ## Helper lemmas -/

/-- Tail of `commaSeparated`: every element prefixed by the separator. -/
def commaPrefixedAll (g : String → String) : List String → String
  | [] => ""
  | c :: rest => ", " ++ g c ++ commaPrefixedAll g rest

theorem commaSeparated_cons_eq (x : String) (xs : List String) :
    commaSeparated (x :: xs) = x ++ commaPrefixedAll (fun s => s) xs := by
  induction xs generalizing x with
  | nil => simp [commaSeparated, commaPrefixedAll, String.append_empty]
  | cons y ys ih =>
      simp only [commaSeparated, commaPrefixedAll, ih y, String.append_assoc]

theorem commaPrefixedAll_map (g : String → String) (xs : List String) :
    commaPrefixedAll (fun s => s) (xs.map g) = commaPrefixedAll g xs := by
  induction xs with
  | nil => rfl
  | cons x rest ih => simp [commaPrefixedAll, ih]

theorem enumeratedCommaFold_succ (g : String → String) (xs : List String) :
    ∀ (q : String) (k : Nat),
      enumeratedCommaFold g q (k + 1) xs = q ++ commaPrefixedAll g xs := by
  induction xs with
  | nil => intro q k; simp [enumeratedCommaFold, commaPrefixedAll, String.append_empty]
  | cons c rest ih =>
      intro q k
      simp only [enumeratedCommaFold, Nat.succ_ne_zero, ne_eq, not_false_eq_true,
        if_pos, commaPrefixedAll, ih, String.append_assoc]

theorem enumeratedCommaFold_zero (g : String → String) (q : String) :
    ∀ xs : List String,
      enumeratedCommaFold g q 0 xs = q ++ commaSeparated (xs.map g) := by
  intro xs
  cases xs with
  | nil => simp [enumeratedCommaFold, commaSeparated, String.append_empty]
  | cons c rest =>
      simp only [enumeratedCommaFold, ne_eq, not_true_eq_false, if_neg,
        Nat.zero_add, enumeratedCommaFold_succ, List.map_cons,
        commaSeparated_cons_eq, commaPrefixedAll_map, String.append_assoc]
      simp

theorem collectAll_eq_firstFailure {ε : Type} (outcomes : List (Except ε Unit)) :
    collectAll outcomes =
      (match firstFailure outcomes with
       | some e => Except.error e
       | none => Except.ok ()) := by
  induction outcomes with
  | nil => rfl
  | cons o rest ih => cases o with
      | ok u => cases u; simpa [collectAll, firstFailure] using ih
      | error e => simp [collectAll, firstFailure]

theorem firstFailure_none_of_all_ok {ε : Type} (outcomes : List (Except ε Unit))
    (h : ∀ o ∈ outcomes, o = Except.ok ()) : firstFailure outcomes = none := by
  induction outcomes with
  | nil => rfl
  | cons o rest ih =>
      have ho := h o (List.mem_cons_self o rest)
      subst ho
      exact ih (fun o hm => h o (List.mem_cons_of_mem _ hm))

theorem ingestionTrace_no_query (env : Env) :
    ∀ ev ∈ ingestionTrace env, ev.isQueryExecution = false := by
  intro ev h
  cases ev <;> try rfl
  exfalso
  simp [ingestionTrace] at h

theorem run_of_ingestion_error (env : Env) (e : ReadErr)
    (h : (ingestionOf env).result = .error e) :
    App.run env = (.error (.ingestion e), ingestionTrace env) := by
  simp [App.run, h]

theorem run_of_dest_exists (env : Env)
    (hok : (ingestionOf env).result = .ok ())
    (hdest : env.destFile.isSome = true) :
    App.run env = (.error .outputAlreadyExists, ingestionTrace env) := by
  simp [App.run, hok, hdest]

theorem run_of_ok (env : Env)
    (hok : (ingestionOf env).result = .ok ())
    (hdest : env.destFile.isSome = false) :
    App.run env =
      ((queryPhase env).1,
        ingestionTrace env
          ++ Event.prompted "Enter SQL query"
            :: Event.queryExecuted env.sql :: (queryPhase env).2) := by
  simp [App.run, hok, hdest]

theorem buildUnitsFrom_err (schema : Schema) :
    ∀ (records : List (Except CsvErr (List String))) (k i : Nat) (r : List String),
      records[i]? = some (.ok r) → r.length ≠ schema.len →
      ∃ e, buildUnitsFrom schema k records = .error e := by
  intro records
  induction records with
  | nil => intro k i r h _; simp at h
  | cons x rest ih =>
      intro k i r hget hlen
      cases i with
      | zero =>
          simp only [List.getElem?_cons_zero, Option.some_inj] at hget
          subst hget
          simp only [buildUnitsFrom]
          rw [if_neg (fun hEq => hlen hEq.symm)]
          exact ⟨_, rfl⟩
      | succ j =>
          simp only [List.getElem?_cons_succ] at hget
          cases x with
          | error e => exact ⟨_, rfl⟩
          | ok record =>
              simp only [buildUnitsFrom]
              by_cases hl : schema.len = record.length
              · rw [if_pos hl]
                obtain ⟨e, he⟩ := ih (k + 1) j r hget hlen
                rw [he]
                exact ⟨e, rfl⟩
              · rw [if_neg hl]
                exact ⟨_, rfl⟩

/-! ## Claim theorems -/

/-- C4: for every result-cell value, the Value Decoder attempts decoding
in exactly the fixed precedence order text, i32, i64, f32, f64, decimal,
takes the first successful interpretation rendered as text (text passed
through unchanged and borrowed, numeric/decimal via their canonical
string form) — and when no interpretation succeeds, the decoder has no
value: the source `panic!`s, terminating the process. -/
theorem decoder_fixed_precedence (v : PgValue) :
    ((DecodedValue.fromPgValue v).map (fun d => d.data.text)
        = firstSome (decodeAttempts v)) ∧
    (∀ s, v.textVal = some s →
        DecodedValue.fromPgValue v = some ⟨Cow.borrowed s⟩) ∧
    (v.textVal = none → v.i32Val = none → v.i64Val = none → v.f32Val = none →
        v.f64Val = none → v.decimalVal = none →
        DecodedValue.fromPgValue v = none) := by
  obtain ⟨t, a, b, c, d, e, ti⟩ := v
  cases t <;> cases a <;> cases b <;> cases c <;> cases d <;> cases e <;>
    simp [DecodedValue.fromPgValue, decodeAttempts, firstSome, Cow.text]

/-- Witness for C4 at concrete inputs: a text-decodable cell is borrowed
through unchanged even when later attempts would also succeed, and an
undecodable cell is fatal. -/
theorem decoder_fixed_precedence_witness :
    DecodedValue.fromPgValue ⟨some "hi", some 7, none, none, none, none, "text"⟩
        = some ⟨Cow.borrowed "hi"⟩ ∧
    DecodedValue.fromPgValue ⟨none, none, none, none, none, none, "bytea"⟩
        = none := by
  constructor
  · exact (decoder_fixed_precedence
      ⟨some "hi", some 7, none, none, none, none, "text"⟩).2.1 "hi" rfl
  · exact (decoder_fixed_precedence
      ⟨none, none, none, none, none, none, "bytea"⟩).2.2 rfl rfl rfl rfl rfl rfl

/-- C7: a query result with zero rows makes the Export Writer return
`false` and write no record at all to the destination — no data row and
not even a header (the destination holds the empty record list). -/
theorem empty_result_writes_no_record :
    write_csv ([] : List (Except DbErr PgRow)) none
      = (Except.ok false, some ([] : List (List String))) := rfl

/-- C10: the destination file is created (with create-new semantics)
before the first row is pulled, so it exists after `write_csv` for every
cursor — in particular a zero-row result leaves an existing, empty output
file even though the writer returned `false` and wrote no record. -/
theorem destination_created_before_first_pull :
    (∀ rows : List (Except DbErr PgRow), ((write_csv rows none).2).isSome) ∧
    (write_csv ([] : List (Except DbErr PgRow)) none).2
        = some ([] : List (List String)) ∧
    (write_csv ([] : List (Except DbErr PgRow)) none).1 = Except.ok false := by
  refine ⟨?_, rfl, rfl⟩
  intro rows
  cases rows with
  | nil => rfl
  | cons r rest =>
      cases r with
      | error e => rfl
      | ok row =>
          simp only [write_csv]
          cases hw : write_row_to_csv row [row.columns] with
          | none => simp [hw]
          | some file1 =>
              simp only [hw]
              cases hc : collectAll (writeRemaining rest file1).1 with
              | error e => simp [hc]
              | ok u => simp [hc]

/-- C9: table provisioning first unconditionally drops the destination
table (the store accepting its absence as success), then issues a create
statement declaring exactly one `VARCHAR(256) NOT NULL` (fixed-capacity
variable-text) column per schema entry, in schema order, so the declared
column list's count and order equal the Schema exactly. -/
theorem provisioning_drop_then_create (s : Schema) (db : DbState) :
    Schema.create_table s = [dropTableStatement, s.create_table_query] ∧
    execDropTableIfExists db = .ok none ∧
    s.create_table_query = "CREATE TABLE data (" ++
      commaSeparated
        (s.columns.map (fun c => c ++ " VARCHAR(256) NOT NULL")) ++ ")" ∧
    (s.columns.map (fun c => c ++ " VARCHAR(256) NOT NULL")).length = s.len := by
  refine ⟨rfl, rfl, ?_, by simp [Schema.len]⟩
  simp only [Schema.create_table_query, enumeratedCommaFold_zero]

/-- C8: when the export destination already exists, the export fails
before any output occurs — the writer refuses the open, leaving the
pre-existing file byte-for-byte unchanged — and at the run level the
whole run ends in an error without the query ever executing. -/
theorem existing_destination_refused (rows : List (Except DbErr PgRow))
    (f : List (List String)) (env : Env)
    (hdest : env.destFile.isSome = true) :
    write_csv rows (some f) = (.error .destinationExists, some f) ∧
    (∃ e, (App.run env).1 = Except.error e) ∧
    (∀ ev ∈ (App.run env).2, ev.isQueryExecution = false) := by
  refine ⟨rfl, ?_, ?_⟩
  · cases hres : (ingestionOf env).result with
    | error e => exact ⟨_, by rw [run_of_ingestion_error env e hres]⟩
    | ok u => cases u; exact ⟨_, by rw [run_of_dest_exists env hres hdest]⟩
  · intro ev hev
    cases hres : (ingestionOf env).result with
    | error e =>
        rw [run_of_ingestion_error env e hres] at hev
        exact ingestionTrace_no_query env ev hev
    | ok u =>
        cases u
        rw [run_of_dest_exists env hres hdest] at hev
        exact ingestionTrace_no_query env ev hev

/-- Concrete environment whose export destination already exists. -/
def cEnv8 : Env :=
  { header := ["a"]
    records := [Except.ok ["x"]]
    insertOutcome := fun _ => .ok ()
    order := [0]
    sql := "SELECT * FROM data"
    queryRows := []
    destFile := some [["old"]] }

/-- Witness for C8 at a concrete input. -/
theorem existing_destination_refused_witness :
    write_csv ([] : List (Except DbErr PgRow)) (some [["old"]])
        = (.error .destinationExists, some [["old"]]) ∧
    (∃ e, (App.run cEnv8).1 = Except.error e) ∧
    (∀ ev ∈ (App.run cEnv8).2, ev.isQueryExecution = false) :=
  existing_destination_refused [] [["old"]] cEnv8 rfl

/-- C5: a dataset holding a data row whose field count differs from the
header's length makes ingestion fail with a reported failure (never a
silent success: the `assert_eq!` aborts the run rather than skipping the
row), no insert is attempted for that row (indeed the unpolled futures
mean no insert is attempted at all), and the run surfaces the failure. -/
theorem mismatched_row_aborts_ingestion (env : Env) (i : Nat) (r : List String)
    (hget : env.records[i]? = some (Except.ok r))
    (hlen : r.length ≠ env.header.length) :
    ∃ e, (ingestionOf env).result = Except.error e ∧
      (ingestionOf env).attempted = [] ∧
      (ingestionOf env).completions = [] ∧
      (App.run env).1 = Except.error (RunErr.ingestion e) := by
  have hlen' : r.length ≠ Schema.len ⟨env.header⟩ := hlen
  obtain ⟨e, he⟩ := buildUnitsFrom_err ⟨env.header⟩ env.records 0 i r hget hlen'
  have hread : ingestionOf env = ⟨.error e, [], []⟩ := by
    simp [ingestionOf, read_csv, buildUnits, he]
  have hres : (ingestionOf env).result = .error e := by rw [hread]
  refine ⟨e, hres, by rw [hread], by rw [hread], ?_⟩
  rw [run_of_ingestion_error env e hres]

/-- Concrete environment whose single data row has one field too many for
its two-column header. -/
def cEnv5 : Env :=
  { header := ["a", "b"]
    records := [Except.ok ["1", "2", "3"]]
    insertOutcome := fun _ => .ok ()
    order := []
    sql := "SELECT * FROM data"
    queryRows := []
    destFile := none }

/-- Witness for C5 at a concrete input. -/
theorem mismatched_row_aborts_ingestion_witness :
    ∃ e, (ingestionOf cEnv5).result = Except.error e ∧
      (ingestionOf cEnv5).attempted = [] ∧
      (ingestionOf cEnv5).completions = [] ∧
      (App.run cEnv5).1 = Except.error (RunErr.ingestion e) :=
  mismatched_row_aborts_ingestion cEnv5 0 ["1", "2", "3"] rfl (by decide)

theorem read_csv_completions (schema : Schema)
    (records : List (Except CsvErr (List String)))
    (outcome : Nat → Except DbErr Unit) (order : List Nat) (units : List String)
    (hbuild : buildUnits schema records = .ok units) :
    (read_csv schema records outcome order).completions
      = order.map (fun i => (i, outcome i)) := by
  simp only [read_csv, hbuild]
  cases collectAll ((order.map (fun i => (i, outcome i))).map Prod.snd) <;> rfl

theorem read_csv_result (schema : Schema)
    (records : List (Except CsvErr (List String)))
    (outcome : Nat → Except DbErr Unit) (order : List Nat) (units : List String)
    (hbuild : buildUnits schema records = .ok units) :
    (read_csv schema records outcome order).result
      = (match collectAll (order.map (fun i => outcome i)) with
         | .error e => Except.error (ReadErr.insertFailed e)
         | .ok _ => Except.ok ()) := by
  have hmap : (order.map (fun i => (i, outcome i))).map Prod.snd
      = order.map (fun i => outcome i) := by
    rw [List.map_map]; rfl
  simp only [read_csv, hbuild, hmap]
  cases collectAll (order.map (fun i => outcome i)) <;> rfl

/-- C1: the Ingestion Scheduler drives every dispatched insert unit to
completion regardless of other units' outcomes (nothing is cancelled or
suppressed when a sibling fails — every unit index appears among the
completion events), and the aggregated result is determined only by the
full completion-ordered outcome list: it surfaces the first captured
failure, and succeeds when every unit succeeded. -/
theorem ingestion_scheduler_collect_all (schema : Schema)
    (records : List (Except CsvErr (List String)))
    (outcome : Nat → Except DbErr Unit) (order : List Nat) (units : List String)
    (hbuild : buildUnits schema records = .ok units)
    (hperm : order.Perm (List.range units.length)) :
    (∀ i < units.length,
        (i, outcome i) ∈ (read_csv schema records outcome order).completions) ∧
    ((read_csv schema records outcome order).result
        = (match firstFailure
              ((read_csv schema records outcome order).completions.map Prod.snd) with
           | some e => Except.error (ReadErr.insertFailed e)
           | none => Except.ok ())) ∧
    ((∀ i < units.length, outcome i = .ok ()) →
        (read_csv schema records outcome order).result = .ok ()) := by
  have hcomp := read_csv_completions schema records outcome order units hbuild
  have hres := read_csv_result schema records outcome order units hbuild
  have hmap : (order.map (fun i => (i, outcome i))).map Prod.snd
      = order.map (fun i => outcome i) := by
    rw [List.map_map]; rfl
  refine ⟨?_, ?_, ?_⟩
  · intro i hi
    rw [hcomp]
    exact List.mem_map_of_mem _
      (hperm.mem_iff.mpr (List.mem_range.mpr hi))
  · rw [hres, hcomp, hmap, collectAll_eq_firstFailure]
    cases firstFailure (order.map (fun i => outcome i)) <;> rfl
  · intro hall
    rw [hres, collectAll_eq_firstFailure,
      firstFailure_none_of_all_ok _ ?all]
    intro o ho
    obtain ⟨j, hj, rfl⟩ := List.mem_map.mp ho
    exact hall j (List.mem_range.mp (hperm.mem_iff.mp hj))

/-- Concrete scheduler input for the C1 witness: two rows, the unit
dispatched first fails, the sibling still completes, and the failure is
surfaced only through the completion-ordered outcome list. -/
def cSchema : Schema := ⟨["a"]⟩

def cRecords : List (Except CsvErr (List String)) :=
  [Except.ok ["x"], Except.ok ["y"]]

def cOutcome : Nat → Except DbErr Unit :=
  fun i => if i = 0 then .error (.queryRejected "duplicate key") else .ok ()

def cUnits : List String := [insertQuery cSchema ["x"], insertQuery cSchema ["y"]]

/-- Witness for C1 at a concrete input (completion order `[1, 0]`, the
reverse of dispatch order). -/
theorem ingestion_scheduler_collect_all_witness :
    (∀ i < cUnits.length,
        (i, cOutcome i) ∈ (read_csv cSchema cRecords cOutcome [1, 0]).completions) ∧
    ((read_csv cSchema cRecords cOutcome [1, 0]).result
        = (match firstFailure
              ((read_csv cSchema cRecords cOutcome [1, 0]).completions.map Prod.snd) with
           | some e => Except.error (ReadErr.insertFailed e)
           | none => Except.ok ())) ∧
    ((∀ i < cUnits.length, cOutcome i = .ok ()) →
        (read_csv cSchema cRecords cOutcome [1, 0]).result = .ok ()) :=
  ingestion_scheduler_collect_all cSchema cRecords cOutcome [1, 0] cUnits rfl
    (by decide)

theorem writeRemaining_all_ok (rows : List PgRow) :
    ∀ file : List (List String),
      (∀ r ∈ rows, (decodeRowValues r).isSome) →
      writeRemaining (rows.map Except.ok) file =
        (rows.map (fun _ => Except.ok ()),
         file ++ rows.map (fun r => (decodeRowValues r).getD [])) := by
  induction rows with
  | nil => intro file _; simp [writeRemaining]
  | cons r rest ih =>
      intro file hdec
      have hr : (decodeRowValues r).isSome := hdec r (List.mem_cons_self r rest)
      obtain ⟨v, hv⟩ := Option.isSome_iff_exists.mp hr
      simp only [List.map_cons, writeRemaining, write_row_to_csv, hv]
      rw [ih (file ++ [v]) (fun x hx => hdec x (List.mem_cons_of_mem _ hx))]
      simp [hv, List.append_assoc]

theorem collectAll_all_ok {ε : Type} {α : Type} (xs : List α) :
    collectAll (ε := ε) (xs.map (fun _ => Except.ok ())) = .ok () := by
  induction xs with
  | nil => rfl
  | cons x rest ih => simpa [collectAll] using ih

theorem collectAll_replicate_ok {ε : Type} (n : Nat) :
    collectAll (ε := ε) (List.replicate n (Except.ok ())) = .ok () := by
  induction n with
  | zero => rfl
  | succ m ih => simpa [collectAll, List.replicate] using ih

/-- C6: on a non-empty query result (all rows produced and decodable),
the Export Writer writes the header exactly once, built from the first
produced row's own column names, strictly before any data row (it is the
first record of the destination), then writes every row's decoded values
in cursor-yield order, and returns `true`. -/
theorem export_header_once_then_rows (first_row : PgRow) (rest : List PgRow)
    (hdec : ∀ r ∈ first_row :: rest, (decodeRowValues r).isSome) :
    write_csv ((first_row :: rest).map Except.ok) none =
      (Except.ok true,
       some (first_row.columns ::
         (first_row :: rest).map (fun r => (decodeRowValues r).getD []))) := by
  have h0 : (decodeRowValues first_row).isSome :=
    hdec _ (List.mem_cons_self _ _)
  obtain ⟨v0, hv0⟩ := Option.isSome_iff_exists.mp h0
  simp only [List.map_cons, write_csv, write_row_to_csv, hv0]
  rw [writeRemaining_all_ok rest ([first_row.columns] ++ [v0])
    (fun x hx => hdec x (List.mem_cons_of_mem _ hx))]
  simp [collectAll_all_ok, collectAll_replicate_ok, hv0]

/-- A text result cell. -/
def cVal (s : String) : PgValue := ⟨some s, none, none, none, none, none, "text"⟩

def cRow1 : PgRow := ⟨["id", "name"], [cVal "1", cVal "alice"]⟩

def cRow2 : PgRow := ⟨["id", "name"], [cVal "2", cVal "bob"]⟩

/-- Witness for C6 at a concrete two-row result. -/
theorem export_header_once_then_rows_witness :
    write_csv (([cRow1, cRow2]).map Except.ok) none =
      (Except.ok true,
       some (cRow1.columns ::
         ([cRow1, cRow2]).map (fun r => (decodeRowValues r).getD []))) :=
  export_header_once_then_rows cRow1 [cRow2] (by decide)

theorem getElem?_append_elim {α : Type} {l₁ l₂ : List α} {i : Nat} {x : α}
    (h : (l₁ ++ l₂)[i]? = some x) :
    (i < l₁.length ∧ l₁[i]? = some x) ∨
    (l₁.length ≤ i ∧ l₂[i - l₁.length]? = some x) := by
  by_cases hi : i < l₁.length
  · exact Or.inl ⟨hi, by rwa [List.getElem?_append_left hi] at h⟩
  · have hle := Nat.le_of_not_lt hi
    exact Or.inr ⟨hle, by rwa [List.getElem?_append_right hle] at h⟩

theorem getElem?_append_intro {α : Type} {l₁ : List α} (l₂ : List α) {i : Nat}
    {x : α} (h : l₁[i]? = some x) : (l₁ ++ l₂)[i]? = some x := by
  have hi : i < l₁.length := (List.getElem?_eq_some_iff.mp h).1
  rw [List.getElem?_append_left hi]
  exact h

/-- The part of the ingestion trace preceding the Completion Barrier. -/
def prefixA (env : Env) : List Event :=
  [Event.prompted "Enter CSV dataset file", Event.tableProvisioned env.header]
    ++ (ingestionOf env).completions.map
        (fun c => Event.unitCompleted c.1 (exceptToBool c.2))

theorem ingestionTrace_shape (env : Env) :
    ingestionTrace env = prefixA env
      ++ [Event.ingestionFinished (exceptToBool (ingestionOf env).result)] := by
  simp [ingestionTrace, prefixA]

theorem ingestionTrace_len (env : Env) :
    (ingestionTrace env).length = (ingestionOf env).completions.length + 3 := by
  simp [ingestionTrace]

theorem ingestionTrace_no_sql_prompt (env : Env) :
    ∀ ev ∈ ingestionTrace env, ev ≠ Event.prompted "Enter SQL query" := by
  intro ev h hEq
  subst hEq
  simp [ingestionTrace] at h

/-- The run's suffix beginning at the SQL prompt (present only when
ingestion succeeded and the destination was free). -/
def suffixS (env : Env) : List Event :=
  Event.prompted "Enter SQL query"
    :: Event.queryExecuted env.sql :: (queryPhase env).2

theorem queryPhase_tail (env : Env) :
    ∀ ev ∈ (queryPhase env).2, ∃ m, ev = Event.outputMessage m := by
  intro ev h
  unfold queryPhase at h
  rcases hw : write_csv env.queryRows env.destFile with ⟨res, file⟩
  rw [hw] at h
  cases res with
  | error e => simp at h
  | ok any_results => exact ⟨_, by simpa using h⟩

theorem suffixS_no_ingestion (env : Env) :
    ∀ ev ∈ suffixS env, ev.isIngestionEvent = false := by
  intro ev h
  rcases h with _ | ⟨_, h⟩
  · rfl
  rcases h with _ | ⟨_, h⟩
  · rfl
  obtain ⟨m, rfl⟩ := queryPhase_tail env ev h
  rfl

theorem run_trace_append (env : Env)
    (hok : (ingestionOf env).result = .ok ())
    (hdest : env.destFile.isSome = false) :
    (App.run env).2 = ingestionTrace env ++ suffixS env := by
  rw [run_of_ok env hok hdest]
  rfl

theorem run_snd_of_ingestion_error (env : Env) (e : ReadErr)
    (h : (ingestionOf env).result = .error e) :
    (App.run env).2 = ingestionTrace env := by
  rw [run_of_ingestion_error env e h]

theorem run_snd_of_dest_exists (env : Env)
    (hok : (ingestionOf env).result = .ok ())
    (hdest : env.destFile.isSome = true) :
    (App.run env).2 = ingestionTrace env := by
  rw [run_of_dest_exists env hok hdest]

theorem run_fst_of_ingestion_error (env : Env) (e : ReadErr)
    (h : (ingestionOf env).result = .error e) :
    (App.run env).1 = .error (.ingestion e) := by
  rw [run_of_ingestion_error env e h]

theorem completions_of_build (env : Env) (units : List String)
    (hbuild : buildUnits ⟨env.header⟩ env.records = .ok units) :
    (ingestionOf env).completions
      = env.order.map (fun i => (i, env.insertOutcome i)) :=
  read_csv_completions ⟨env.header⟩ env.records env.insertOutcome env.order
    units hbuild

/-- In the success branch, a `queryExecuted` event sits exactly one place
past the end of the ingestion trace. -/
theorem query_index (env : Env)
    (hok : (ingestionOf env).result = .ok ())
    (hdest : env.destFile.isSome = false)
    {i : Nat} {q : String}
    (hq : (App.run env).2[i]? = some (Event.queryExecuted q)) :
    i = (ingestionTrace env).length + 1 := by
  rw [run_trace_append env hok hdest] at hq
  rcases getElem?_append_elim hq with ⟨hlt, hA⟩ | ⟨hle, hS⟩
  · have hfalse := ingestionTrace_no_query env _ (List.getElem?_mem hA)
    simp [Event.isQueryExecution] at hfalse
  · rcases hm : i - (ingestionTrace env).length with _ | m
    · rw [hm] at hS
      simp [suffixS] at hS
    · rw [hm] at hS
      simp only [suffixS, List.getElem?_cons_succ] at hS
      rcases m with _ | m2
      · omega
      · simp only [List.getElem?_cons_succ] at hS
        obtain ⟨w, hw⟩ := queryPhase_tail env _ (List.getElem?_mem hS)
        simp at hw

/-- In the success branch, the SQL prompt sits exactly at the end of the
ingestion trace. -/
theorem sql_prompt_index (env : Env)
    (hok : (ingestionOf env).result = .ok ())
    (hdest : env.destFile.isSome = false)
    {i : Nat}
    (hp : (App.run env).2[i]? = some (Event.prompted "Enter SQL query")) :
    i = (ingestionTrace env).length := by
  rw [run_trace_append env hok hdest] at hp
  rcases getElem?_append_elim hp with ⟨hlt, hA⟩ | ⟨hle, hS⟩
  · exact absurd rfl (ingestionTrace_no_sql_prompt env _ (List.getElem?_mem hA))
  · rcases hm : i - (ingestionTrace env).length with _ | m
    · omega
    · rw [hm] at hS
      simp only [suffixS, List.getElem?_cons_succ] at hS
      rcases m with _ | m2
      · simp at hS
      · simp only [List.getElem?_cons_succ] at hS
        obtain ⟨w, hw⟩ := queryPhase_tail env _ (List.getElem?_mem hS)
        simp at hw

/-- Every Ingestion Scheduler event lies inside the ingestion trace. -/
theorem ingestion_event_index (env : Env)
    (hok : (ingestionOf env).result = .ok ())
    (hdest : env.destFile.isSome = false)
    {j : Nat} {ev : Event}
    (hj : (App.run env).2[j]? = some ev)
    (hev : ev.isIngestionEvent = true) :
    j < (ingestionTrace env).length := by
  rw [run_trace_append env hok hdest] at hj
  rcases getElem?_append_elim hj with ⟨hlt, _⟩ | ⟨hle, hS⟩
  · exact hlt
  · have hfalse := suffixS_no_ingestion env _ (List.getElem?_mem hS)
    rw [hev] at hfalse
    simp at hfalse

/-- The Completion Barrier event: in the success branch it reports `true`
and sits just before the end of the ingestion trace. -/
theorem barrier_index (env : Env)
    (hok : (ingestionOf env).result = .ok ())
    (hdest : env.destFile.isSome = false) :
    (App.run env).2[(ingestionTrace env).length - 1]?
      = some (Event.ingestionFinished true) := by
  rw [run_trace_append env hok hdest]
  apply getElem?_append_intro
  have hsh : ingestionTrace env = prefixA env ++ [Event.ingestionFinished true] := by
    rw [ingestionTrace_shape env, hok]
    rfl
  have hlen : (ingestionTrace env).length = (prefixA env).length + 1 := by
    rw [hsh]; simp
  rw [hlen, hsh]
  have h0 : (prefixA env).length + 1 - 1 = (prefixA env).length := by omega
  rw [h0]
  exact List.getElem?_concat_length (prefixA env) _

/-- In the success branch, the unit dispatched as index `k`, completing
at position `p` of the completion order, appears in the run trace at
index `2 + p`. -/
theorem unit_event_index (env : Env) (units : List String)
    (hbuild : buildUnits ⟨env.header⟩ env.records = .ok units)
    (hok : (ingestionOf env).result = .ok ())
    (hdest : env.destFile.isSome = false)
    {p k : Nat} (hp : env.order[p]? = some k) :
    (App.run env).2[2 + p]?
      = some (Event.unitCompleted k (exceptToBool (env.insertOutcome k))) := by
  have hcomp := completions_of_build env units hbuild
  have hplen : p < env.order.length := (List.getElem?_eq_some_iff.mp hp).1
  rw [run_trace_append env hok hdest]
  apply getElem?_append_intro
  rw [ingestionTrace_shape env]
  apply getElem?_append_intro
  simp only [prefixA, hcomp, List.map_map]
  rw [List.getElem?_append_right (by simp : ([Event.prompted "Enter CSV dataset file", Event.tableProvisioned env.header]).length ≤ 2 + p)]
  have : 2 + p - 2 = p := by omega
  rw [List.length_cons, List.length_cons, List.length_nil, this,
    List.getElem?_map, hp]
  rfl

/-- C2: query execution never begins while any ingestion unit is still
pending.  Whenever the trace executes the operator's SQL (index `i`),
every unit-completion event lies strictly before `i`, the Completion
Barrier (`ingestionFinished true`) lies strictly before `i`, and — for a
faithful completion order — every dispatched unit has completed strictly
before `i`.  And when ingestion failed, the run ends with exactly that
failure and the query is never executed. -/
theorem completion_barrier_before_query (env : Env) :
    (∀ (i : Nat) (q : String),
        (App.run env).2[i]? = some (Event.queryExecuted q) →
        (∀ (j k : Nat) (b : Bool),
            (App.run env).2[j]? = some (Event.unitCompleted k b) → j < i) ∧
        (∃ j, j < i ∧
            (App.run env).2[j]? = some (Event.ingestionFinished true)) ∧
        (∀ units, buildUnits ⟨env.header⟩ env.records = .ok units →
            env.order.Perm (List.range units.length) →
            ∀ k, k < units.length →
              ∃ j, j < i ∧ ∃ b,
                (App.run env).2[j]? = some (Event.unitCompleted k b))) ∧
    (∀ e, (ingestionOf env).result = .error e →
        (App.run env).1 = Except.error (RunErr.ingestion e) ∧
        ∀ ev ∈ (App.run env).2, ev.isQueryExecution = false) := by
  constructor
  · intro i q hq
    rcases hres : (ingestionOf env).result with e | u
    case error =>
      rw [run_snd_of_ingestion_error env e hres] at hq
      have hfalse := ingestionTrace_no_query env _ (List.getElem?_mem hq)
      simp [Event.isQueryExecution] at hfalse
    case ok =>
      cases u
      cases hdf : env.destFile.isSome with
      | true =>
          rw [run_snd_of_dest_exists env hres hdf] at hq
          have hfalse := ingestionTrace_no_query env _ (List.getElem?_mem hq)
          simp [Event.isQueryExecution] at hfalse
      | false =>
          have hi := query_index env hres hdf hq
          refine ⟨?_, ?_, ?_⟩
          · intro j k b hj
            have hjlt := ingestion_event_index env hres hdf hj rfl
            omega
          · refine ⟨(ingestionTrace env).length - 1, ?_,
              barrier_index env hres hdf⟩
            have hlen := ingestionTrace_len env
            omega
          · intro units hbuild hperm k hk
            have hkmem : k ∈ env.order :=
              hperm.mem_iff.mpr (List.mem_range.mpr hk)
            obtain ⟨p, hp⟩ := List.getElem?_of_mem hkmem
            refine ⟨2 + p, ?_, exceptToBool (env.insertOutcome k),
              unit_event_index env units hbuild hres hdf hp⟩
            have hplen : p < env.order.length :=
              (List.getElem?_eq_some_iff.mp hp).1
            have hcomp := completions_of_build env units hbuild
            have hlen := ingestionTrace_len env
            have hcl : (ingestionOf env).completions.length
                = env.order.length := by rw [hcomp]; simp
            omega
  · intro e he
    refine ⟨run_fst_of_ingestion_error env e he, ?_⟩
    intro ev hev
    rw [run_snd_of_ingestion_error env e he] at hev
    exact ingestionTrace_no_query env ev hev

/-- Concrete one-row run used for the C2 witness: the query executes at
trace index 5, after the single unit's completion (index 2) and the
barrier (index 3). -/
def cEnv2 : Env :=
  { header := ["a"]
    records := [Except.ok ["x"]]
    insertOutcome := fun _ => .ok ()
    order := [0]
    sql := "SELECT 1"
    queryRows := []
    destFile := none }

/-- Witness for C2 at a concrete input. -/
theorem completion_barrier_before_query_witness :
    (∀ (j k : Nat) (b : Bool),
        (App.run cEnv2).2[j]? = some (Event.unitCompleted k b) → j < 5) ∧
    (∃ j, j < 5 ∧
        (App.run cEnv2).2[j]? = some (Event.ingestionFinished true)) ∧
    (∀ units, buildUnits ⟨cEnv2.header⟩ cEnv2.records = .ok units →
        cEnv2.order.Perm (List.range units.length) →
        ∀ k, k < units.length →
          ∃ j, j < 5 ∧ ∃ b,
            (App.run cEnv2).2[j]? = some (Event.unitCompleted k b)) :=
  (completion_barrier_before_query cEnv2).1 5 "SELECT 1" (by decide)

/-- The events a run produces strictly after the SQL-query prompt. -/
def eventsAfterSqlPrompt (tr : List Event) : List Event :=
  (tr.dropWhile (fun ev => ev != Event.prompted "Enter SQL query")).drop 1

/-- Concrete one-row run for settling C3. -/
def cEnv3 : Env :=
  { header := ["a"]
    records := [Except.ok ["x"]]
    insertOutcome := fun _ => .ok ()
    order := [0]
    sql := "SELECT 2"
    queryRows := []
    destFile := none }

/-- C3 as stated is false on the code: `App::run` awaits `read_csv`
inline *before* prompting for the SQL query, so the scheduler's work is
not an independent background unit running concurrently with the prompt,
and its outcome is not awaited at a post-prompt barrier.  Concretely: on
a run that dispatches an ingestion unit, the SQL prompt does occur and
ingestion events do occur, yet not a single ingestion event (unit
completion or scheduler outcome) follows the prompt — everything after
the prompt is just the query execution and the final message. -/
theorem scheduler_concurrent_with_prompt_counterexample :
    Event.prompted "Enter SQL query" ∈ (App.run cEnv3).2 ∧
    (App.run cEnv3).2.any Event.isIngestionEvent = true ∧
    (eventsAfterSqlPrompt (App.run cEnv3).2).any Event.isIngestionEvent
        = false ∧
    eventsAfterSqlPrompt (App.run cEnv3).2
        = [Event.queryExecuted "SELECT 2",
           Event.outputMessage "Empty result set"] := by
  decide

/-- C3 (amended): the ingestion scheduler's work is driven to completion
immediately after the Schema/Table steps and its outcome is awaited
inline *before* the prompt for the SQL query: whenever the SQL prompt
occurs (index `i`), the Completion Barrier outcome precedes it and every
ingestion event lies strictly before `i`; and when ingestion failed, the
SQL prompt (like the query) never occurs at all. -/
theorem ingestion_completes_before_sql_prompt (env : Env) :
    (∀ (i : Nat),
        (App.run env).2[i]? = some (Event.prompted "Enter SQL query") →
        (∃ j, j < i ∧
            (App.run env).2[j]? = some (Event.ingestionFinished true)) ∧
        (∀ (j : Nat) (ev : Event), (App.run env).2[j]? = some ev →
            ev.isIngestionEvent = true → j < i)) ∧
    (∀ e, (ingestionOf env).result = .error e →
        ∀ ev ∈ (App.run env).2, ev ≠ Event.prompted "Enter SQL query") := by
  constructor
  · intro i hp
    rcases hres : (ingestionOf env).result with e | u
    case error =>
      rw [run_snd_of_ingestion_error env e hres] at hp
      exact absurd rfl (ingestionTrace_no_sql_prompt env _ (List.getElem?_mem hp))
    case ok =>
      cases u
      cases hdf : env.destFile.isSome with
      | true =>
          rw [run_snd_of_dest_exists env hres hdf] at hp
          exact absurd rfl
            (ingestionTrace_no_sql_prompt env _ (List.getElem?_mem hp))
      | false =>
          have hi := sql_prompt_index env hres hdf hp
          refine ⟨⟨(ingestionTrace env).length - 1, ?_,
              barrier_index env hres hdf⟩, ?_⟩
          · have hlen := ingestionTrace_len env
            omega
          · intro j ev hj hev
            have hjlt := ingestion_event_index env hres hdf hj hev
            omega
  · intro e he ev hev
    rw [run_snd_of_ingestion_error env e he] at hev
    exact ingestionTrace_no_sql_prompt env ev hev

/-- Witness for the amended C3 at a concrete input (the prompt sits at
trace index 4, past the barrier at index 3). -/
theorem ingestion_completes_before_sql_prompt_witness :
    (∃ j, j < 4 ∧
        (App.run cEnv3).2[j]? = some (Event.ingestionFinished true)) ∧
    (∀ (j : Nat) (ev : Event), (App.run cEnv3).2[j]? = some ev →
        ev.isIngestionEvent = true → j < 4) :=
  (ingestion_completes_before_sql_prompt cEnv3).1 4 (by decide)

end DataSifter
